import Mathlib

/-!
Shallow embedding of the board-agent voice subsystem.

The definitions below are translated from `voice_session_manager.py`
(session registry, lifecycle, cleanup sweeper), `server.py` (the two-phase
voice endpoints) and `voice_websocket_handler.py` (the duplex relay and the
tool dispatcher).  Machine-level details that the Python code does not
depend on (wall-clock floats, actual sockets) are modelled with `Nat`
timestamps and opaque `Nat` handles; calls into external collaborators
(`canvas_ops`, the Gemini client) are modelled as parameters.  Code between
two `await` points runs atomically on the asyncio event loop, so the
small-step relation `CStep` has one constructor per such atomic block,
including the blocks run by establishment tasks orphaned by an
8-character id collision.
-/

/-- Status of a voice session (`SessionStatus` enum in
`voice_session_manager.py`). -/
inductive SStatus
  | pending
  | connecting
  | ready
  | in_use
  | sessError
  | closed
  deriving DecidableEq, Repr

/-- Progress of the background `_connect_session` task attached to one
session object: not yet run, suspended at the `await connection.__aenter__()`
handshake, or finished (normally, with an exception, or cancelled). -/
inductive ConnectTaskPC
  | notStarted
  | awaitingHandshake
  | finished
  deriving DecidableEq, Repr

/-- The `VoiceSession` dataclass of `voice_session_manager.py`.  `key` is the
identity of the Python object (creation ordinal), used to tell a session
apart from a later session stored under the same 8-character id.
`gemini_session` is the upstream handle (opaque), `has_connection_cm`
mirrors the `_connection_cm` attribute set together with the handle, and
`closing` records that a `close_session` call has passed its first atomic
block (status set to CLOSED) but not yet popped the entry. -/
structure VSession where
  key : Nat
  session_id : String
  patient_id : String
  status : SStatus
  created_at : Nat
  gemini_session : Option Nat
  has_connection_cm : Bool
  connect_pc : ConnectTaskPC
  closing : Bool
  deriving DecidableEq, Repr

/-- The manager's `self.sessions` dict, as an association list. -/
abbrev SRegistry := List (String × VSession)

/-- Dict lookup `self.sessions.get(sid)`. -/
def lookupS : SRegistry → String → Option VSession
  | [], _ => none
  | p :: rest, sid => if p.1 = sid then some p.2 else lookupS rest sid

/-- Dict removal `self.sessions.pop(sid, None)` (drops every binding of
`sid`; registries built by the operations below bind each id once). -/
def eraseS : SRegistry → String → SRegistry
  | [], _ => []
  | p :: rest, sid => if p.1 = sid then eraseS rest sid else p :: eraseS rest sid

/-- Dict write `self.sessions[sid] = v`. -/
def storeS (r : SRegistry) (sid : String) (v : VSession) : SRegistry :=
  (sid, v) :: eraseS r sid

theorem lookupS_storeS_self (r : SRegistry) (sid : String) (v : VSession) :
    lookupS (storeS r sid v) sid = some v := by
  simp [lookupS, storeS]

theorem lookupS_eraseS_self (r : SRegistry) (sid : String) :
    lookupS (eraseS r sid) sid = none := by
  induction r with
  | nil => rfl
  | cons p rest ih =>
    by_cases h : p.1 = sid
    · simpa [eraseS, h] using ih
    · simpa [eraseS, lookupS, h] using ih

theorem lookupS_eraseS_ne (r : SRegistry) (sid sid' : String) (h : sid' ≠ sid) :
    lookupS (eraseS r sid) sid' = lookupS r sid' := by
  have hss : ¬ sid = sid' := fun hc => h hc.symm
  induction r with
  | nil => rfl
  | cons p rest ih =>
    by_cases hp : p.1 = sid
    · simpa [eraseS, lookupS, hp, hss] using ih
    · by_cases hq : p.1 = sid'
      · simp [eraseS, lookupS, hp, hq, h]
      · simpa [eraseS, lookupS, hp, hq] using ih

theorem lookupS_storeS_ne (r : SRegistry) (sid sid' : String) (v : VSession)
    (h : sid' ≠ sid) :
    lookupS (storeS r sid v) sid' = lookupS r sid' := by
  have hne : ¬ sid = sid' := fun hc => h hc.symm
  simp only [storeS, lookupS, if_neg hne]
  exact lookupS_eraseS_ne r sid sid' h

/-- The fresh record built by `create_session` before the background task
runs: status PENDING, no handle, no context manager, task not started. -/
def newSession (key : Nat) (sid pid : String) (now : Nat) : VSession :=
  { key := key, session_id := sid, patient_id := pid,
    status := SStatus.pending, created_at := now, gemini_session := none,
    has_connection_cm := false, connect_pc := ConnectTaskPC.notStarted,
    closing := false }

/-- `str(uuid.uuid4())[:8]` — the session id is the first 8 characters of
the version-4 UUID string (Python slices are per character). -/
def makeSessionId (u : String) : String := ⟨u.data.take 8⟩

/-- Manager state: the registry plus a counter supplying fresh object
identities for newly allocated `VoiceSession` objects. -/
structure MState where
  sessions : SRegistry
  next_key : Nat
  deriving Repr

/-- `VoiceSessionManager.create_session`: build the record, write it into
the dict unconditionally (`self.sessions[session_id] = session`), and
schedule the background `_connect_session` task.  `u` is the UUID string
drawn by `uuid.uuid4()`. -/
def createSession (s : MState) (pid u : String) (now : Nat) : String × MState :=
  let sid := makeSessionId u
  (sid, { sessions := storeS s.sessions sid (newSession s.next_key sid pid now),
          next_key := s.next_key + 1 })

/-- Field update performed by `get_session` on success
(`session.status = SessionStatus.IN_USE`). -/
def attachUpd (sess : VSession) : VSession := { sess with status := SStatus.in_use }

/-- `VoiceSessionManager.get_session`: look the id up; if the session exists
and is READY, mark it IN_USE and return it, else return `None`.  The check
and the update are one atomic block (no `await` between them). -/
def getSession (r : SRegistry) (sid : String) : Option VSession × SRegistry :=
  match lookupS r sid with
  | some sess =>
      if sess.status = SStatus.ready then
        (some (attachUpd sess), storeS r sid (attachUpd sess))
      else (none, r)
  | none => (none, r)

/-- What `close_session` did: whether it cancelled a still-running
`_connect_task` and whether it exited the upstream connection context. -/
structure CloseEffects where
  cancelledConnectTask : Bool
  releasedUpstreamHandle : Bool
  deriving DecidableEq, Repr

/-- `VoiceSessionManager.close_session`, sequential end-to-end semantics:
unknown id returns at once; otherwise the status is set to CLOSED, the
establishment task is cancelled if not done, the upstream context manager
is exited when a handle and `_connection_cm` are present (exceptions
swallowed), and the entry is popped.  The function is total: no input makes
it raise. -/
def closeSession (r : SRegistry) (sid : String) : SRegistry × CloseEffects :=
  match lookupS r sid with
  | none => (r, ⟨false, false⟩)
  | some sess =>
      (eraseS r sid,
       ⟨decide (sess.connect_pc ≠ ConnectTaskPC.finished),
        sess.gemini_session.isSome && sess.has_connection_cm⟩)

/-- Outcome of the WebSocket attach endpoint in `server.py`. -/
inductive AttachOutcome
  | accepted (sess : VSession)
  | refused (closeCode : Nat)
  deriving DecidableEq, Repr

/-- `websocket_voice_session` in `server.py`: call `get_session`; if it
returns `None`, close the socket with reserved code 4004
("Session not ready or not found"); otherwise accept. -/
def websocketVoiceSession (r : SRegistry) (sid : String) :
    AttachOutcome × SRegistry :=
  match getSession r sid with
  | (some sess, r') => (AttachOutcome.accepted sess, r')
  | (none, r') => (AttachOutcome.refused 4004, r')

/-- Concrete READY session for witnesses: handle present, establishment
task finished. -/
def exReadySession : VSession :=
  { key := 0, session_id := "ab12cd34", patient_id := "p1",
    status := SStatus.ready, created_at := 0, gemini_session := some 7,
    has_connection_cm := true, connect_pc := ConnectTaskPC.finished,
    closing := false }

/-- Concrete one-session registry for witnesses. -/
def exReg : SRegistry := [("ab12cd34", exReadySession)]

/-- C2: `get_session` returns the session iff it exists and is READY at the
moment of the call, in which case it sets IN_USE in the same atomic block,
so a second attach attempt on the resulting registry fails; and whenever
`get_session` returns `None`, the `websocket_voice_session` endpoint in
`server.py` refuses the connection with reserved close code 4004. -/
theorem attach_iff_ready (r : SRegistry) (sid : String) :
    ((getSession r sid).1.isSome ↔
      ∃ sess, lookupS r sid = some sess ∧ sess.status = SStatus.ready)
    ∧ (∀ sess, lookupS r sid = some sess → sess.status = SStatus.ready →
        (getSession r sid).1 = some (attachUpd sess)
        ∧ lookupS (getSession r sid).2 sid = some (attachUpd sess)
        ∧ (attachUpd sess).status = SStatus.in_use)
    ∧ ((getSession r sid).1.isSome →
        (getSession (getSession r sid).2 sid).1 = none)
    ∧ ((getSession r sid).1 = none →
        (websocketVoiceSession r sid).1 = AttachOutcome.refused 4004) := by
  match hl : lookupS r sid with
  | none =>
      refine ⟨?_, ?_, ?_, ?_⟩
      · simp [getSession, hl]
      · intro sess hs
        exact absurd hs (by simp)
      · simp [getSession, hl]
      · intro _
        simp [websocketVoiceSession, getSession, hl]
  | some sess =>
      by_cases hst : sess.status = SStatus.ready
      · refine ⟨?_, ?_, ?_, ?_⟩
        · simp only [getSession, hl, hst, if_pos]
          constructor
          · intro _
            exact ⟨sess, rfl, hst⟩
          · intro _
            simp
        · intro sess' hs hr
          cases hs
          refine ⟨by simp [getSession, hl, hst], ?_, rfl⟩
          simp [getSession, hl, hst, lookupS_storeS_self]
        · intro _
          simp [getSession, hl, hst, lookupS_storeS_self, attachUpd]
        · intro hnone
          rw [show (getSession r sid).1 = some (attachUpd sess) by
                simp [getSession, hl, hst]] at hnone
          exact absurd hnone (by simp)
      · refine ⟨?_, ?_, ?_, ?_⟩
        · simp only [getSession, hl, hst, if_neg]
          constructor
          · intro habs
            exact absurd habs (by simp)
          · rintro ⟨sess', hs', hr'⟩
            cases hs'
            exact absurd hr' hst
        · intro sess' hs hr
          cases hs
          exact absurd hr hst
        · intro habs
          rw [show (getSession r sid).1 = none by simp [getSession, hl, hst]] at habs
          exact absurd habs (by simp)
        · intro _
          simp [websocketVoiceSession, getSession, hl, hst]

/-- Witness for C2 at a concrete registry: attach on a READY session
succeeds, and a second attach on the same id then fails. -/
theorem attach_iff_ready_witness :
    (getSession exReg "ab12cd34").1 = some (attachUpd exReadySession)
    ∧ (getSession (getSession exReg "ab12cd34").2 "ab12cd34").1 = none :=
  ⟨((attach_iff_ready exReg "ab12cd34").2.1 exReadySession (by decide) (by decide)).1,
   (attach_iff_ready exReg "ab12cd34").2.2.1 (by decide)⟩

/-- C3: `close_session` removes the entry (no session with that id remains),
leaves every other entry in place, and is idempotent: a second call on the
same id is a no-op — it finds nothing, changes nothing, cancels nothing,
releases nothing, and (being a total function) raises no error.  The
effects of a first successful call record the cancellation of a
still-running establishment task and the release of the upstream handle. -/
theorem close_session_idempotent (r : SRegistry) (sid : String) :
    lookupS (closeSession r sid).1 sid = none
    ∧ closeSession (closeSession r sid).1 sid
        = ((closeSession r sid).1, ⟨false, false⟩)
    ∧ (∀ sid', sid' ≠ sid →
        lookupS (closeSession r sid).1 sid' = lookupS r sid')
    ∧ (∀ sess, lookupS r sid = some sess →
        ((closeSession r sid).2.cancelledConnectTask = true
          ↔ sess.connect_pc ≠ ConnectTaskPC.finished)
        ∧ ((closeSession r sid).2.releasedUpstreamHandle = true
          ↔ sess.gemini_session.isSome ∧ sess.has_connection_cm)) := by
  match hl : lookupS r sid with
  | none =>
      refine ⟨?_, ?_, ?_, ?_⟩
      · simp [closeSession, hl]
      · simp [closeSession, hl]
      · intro sid' _
        simp [closeSession, hl]
      · intro sess hs
        exact absurd hs (by simp)
  | some sess =>
      refine ⟨?_, ?_, ?_, ?_⟩
      · simp [closeSession, hl, lookupS_eraseS_self]
      · have h1 : (closeSession r sid).1 = eraseS r sid := by
          simp [closeSession, hl]
        rw [h1]
        simp [closeSession, lookupS_eraseS_self]
      · intro sid' hne
        simp [closeSession, hl, lookupS_eraseS_ne r sid sid' hne]
      · intro sess' hs
        cases hs
        constructor
        · simp [closeSession, hl]
        · simp [closeSession, hl]

/-- Witness for C3 at a concrete registry: after closing, the id is gone,
a re-close is a no-op, an unrelated id is untouched, and the first close
released the upstream handle. -/
theorem close_session_idempotent_witness :
    lookupS (closeSession exReg "ab12cd34").1 "ab12cd34" = none
    ∧ closeSession (closeSession exReg "ab12cd34").1 "ab12cd34"
        = ((closeSession exReg "ab12cd34").1, ⟨false, false⟩)
    ∧ lookupS (closeSession exReg "ab12cd34").1 "other" = lookupS exReg "other"
    ∧ ((closeSession exReg "ab12cd34").2.releasedUpstreamHandle = true
          ↔ exReadySession.gemini_session.isSome ∧ exReadySession.has_connection_cm) :=
  ⟨(close_session_idempotent exReg "ab12cd34").1,
   (close_session_idempotent exReg "ab12cd34").2.1,
   (close_session_idempotent exReg "ab12cd34").2.2.1 "other" (by decide),
   ((close_session_idempotent exReg "ab12cd34").2.2.2 exReadySession (by decide)).2⟩

theorem lookupS_storeS_cases {r : SRegistry} {sid sid' : String} {v w : VSession}
    (h : lookupS (storeS r sid v) sid' = some w) :
    (sid' = sid ∧ w = v) ∨ (sid' ≠ sid ∧ lookupS r sid' = some w) := by
  by_cases he : sid' = sid
  · subst he
    rw [lookupS_storeS_self] at h
    exact Or.inl ⟨rfl, (Option.some_inj.mp h).symm⟩
  · rw [lookupS_storeS_ne r sid sid' v he] at h
    exact Or.inr ⟨he, h⟩

theorem lookupS_eraseS_cases {r : SRegistry} {sid sid' : String} {w : VSession}
    (h : lookupS (eraseS r sid) sid' = some w) :
    sid' ≠ sid ∧ lookupS r sid' = some w := by
  by_cases he : sid' = sid
  · subst he
    rw [lookupS_eraseS_self] at h
    exact absurd h (by simp)
  · rw [lookupS_eraseS_ne r sid sid' he] at h
    exact ⟨he, h⟩

/-- First atomic block of `_connect_session` (manager lines 407-465): set
status CONNECTING, build the config, then suspend at
`await connection.__aenter__()`. -/
def connectStartUpd (sess : VSession) : VSession :=
  { sess with status := SStatus.connecting,
              connect_pc := ConnectTaskPC.awaitingHandshake }

/-- Resumption of `_connect_session` after a successful handshake (lines
466-478): store the handle and `_connection_cm`, set READY, allocate the
relay queues — all before the next `await`. -/
def connectOkUpd (sess : VSession) (handle : Nat) : VSession :=
  { sess with status := SStatus.ready, gemini_session := some handle,
              has_connection_cm := true, connect_pc := ConnectTaskPC.finished }

/-- Resumption of `_connect_session` when the handshake raises (lines
480-485): record the error and set ERROR; no handle was assigned. -/
def connectFailUpd (sess : VSession) : VSession :=
  { sess with status := SStatus.sessError, connect_pc := ConnectTaskPC.finished }

/-- `release_session`: IN_USE back to READY. -/
def releaseUpd (sess : VSession) : VSession := { sess with status := SStatus.ready }

/-- First atomic block of `close_session` (lines 517-531): set status
CLOSED unconditionally and cancel the establishment task, then suspend
(awaiting the cancelled task / the upstream `__aexit__`).  The handle is
never cleared. -/
def closeBeginUpd (sess : VSession) : VSession :=
  { sess with status := SStatus.closed, connect_pc := ConnectTaskPC.finished,
              closing := true }

/-- An establishment task orphaned by an id collision.  `create_session`
stores the task on the object (`session._connect_task`), but
`_connect_session` receives only the id and re-reads
`self.sessions.get(session_id)` when the task first runs (manager line
409).  If a colliding `create_session` replaced the object before that
first run, the task adopts the replacement object and runs a full
establishment lifecycle on it, concurrently with the replacement's own
task; nothing cancels it, since `close_session` cancels only the
replacement's `_connect_task`.  A task already past its first run keeps
mutating the old, now unregistered object, which is invisible through the
registry.  `bound = none` before the first run; `bound = some k` while
suspended at its handshake, adopted to the object with identity `k`. -/
structure OrphanTask where
  sid : String
  bound : Option Nat
  deriving DecidableEq, Repr

/-- Full manager state: registry and identity counter plus the pool of
collision-orphaned establishment tasks. -/
structure CState where
  core : MState
  orphans : List OrphanTask
  deriving Repr

/-- The orphan (if any) left behind when `create_session` overwrites `sid`:
only a task that has not yet had its first run goes on to adopt the
replacement object; one already past its first run holds a reference to
the old object only. -/
def orphanOf (r : SRegistry) (sid : String) : List OrphanTask :=
  match lookupS r sid with
  | some old =>
      if old.connect_pc = ConnectTaskPC.notStarted then [⟨sid, none⟩] else []
  | none => []

/-- First block of `_connect_session` when run by an orphaned task: adopt
the currently registered object and set CONNECTING.  The object's own
`connect_pc` tracks the object's own task and is untouched. -/
def orphanStartUpd (sess : VSession) : VSession :=
  { sess with status := SStatus.connecting }

/-- Success resume of an orphaned task on its adopted object: assign the
handle (overwriting any handle another task installed) and set READY. -/
def orphanOkUpd (sess : VSession) (handle : Nat) : VSession :=
  { sess with status := SStatus.ready, gemini_session := some handle,
              has_connection_cm := true }

/-- Failure resume of an orphaned task on its adopted object: set ERROR.
The handle, possibly installed meanwhile by the object's own task, is not
cleared. -/
def orphanFailUpd (sess : VSession) : VSession :=
  { sess with status := SStatus.sessError }

/-- One atomic block of the session manager on the asyncio event loop.
Each constructor is a maximal run of code between two `await` points:

* `create`   — `create_session`: the unconditional registry write plus
  task scheduling; overwriting an entry whose task has not yet run
  orphans that task (see `OrphanTask`);
* `connectStart` / `connectOk` / `connectFail` — the blocks of the
  object's own `_connect_session` task around its handshake `await`;
* `attach`   — `get_session`'s check-and-mark block;
* `release`  — `release_session`;
* `closeBegin` / `closeFinish` — `close_session` before and after its
  internal `await`s: it sets CLOSED unconditionally and cancels the
  object's own `_connect_task`, then later pops the entry whatever the
  status has become meanwhile;
* `orphanStart` / `orphanStartMiss` — the first run of an orphaned task:
  the lookup by id adopts the registered object whatever its state, or
  returns if the id is gone;
* `orphanOk` / `orphanFail` — the orphan's handshake resume, mutating its
  adopted object when that object is still the registered one;
* `orphanMiss` — the orphan's resume after its adopted object was
  replaced or popped: it mutates an unregistered object, invisible here.

The cleanup sweeper closes sessions through `close_session`, so its
status mutations are instances of the two close constructors. -/
inductive CStep : CState → CState → Prop
  | create (s : CState) (pid u : String) (now : Nat) :
      CStep s ⟨(createSession s.core pid u now).2,
               s.orphans ++ orphanOf s.core.sessions (makeSessionId u)⟩
  | connectStart (s : CState) (sid : String) (sess : VSession)
      (hl : lookupS s.core.sessions sid = some sess)
      (hpc : sess.connect_pc = ConnectTaskPC.notStarted) :
      CStep s ⟨⟨storeS s.core.sessions sid (connectStartUpd sess),
                s.core.next_key⟩, s.orphans⟩
  | connectOk (s : CState) (sid : String) (sess : VSession) (handle : Nat)
      (hl : lookupS s.core.sessions sid = some sess)
      (hpc : sess.connect_pc = ConnectTaskPC.awaitingHandshake) :
      CStep s ⟨⟨storeS s.core.sessions sid (connectOkUpd sess handle),
                s.core.next_key⟩, s.orphans⟩
  | connectFail (s : CState) (sid : String) (sess : VSession)
      (hl : lookupS s.core.sessions sid = some sess)
      (hpc : sess.connect_pc = ConnectTaskPC.awaitingHandshake) :
      CStep s ⟨⟨storeS s.core.sessions sid (connectFailUpd sess),
                s.core.next_key⟩, s.orphans⟩
  | attach (s : CState) (sid : String) (sess : VSession)
      (hl : lookupS s.core.sessions sid = some sess)
      (hst : sess.status = SStatus.ready) :
      CStep s ⟨⟨storeS s.core.sessions sid (attachUpd sess),
                s.core.next_key⟩, s.orphans⟩
  | release (s : CState) (sid : String) (sess : VSession)
      (hl : lookupS s.core.sessions sid = some sess)
      (hst : sess.status = SStatus.in_use) :
      CStep s ⟨⟨storeS s.core.sessions sid (releaseUpd sess),
                s.core.next_key⟩, s.orphans⟩
  | closeBegin (s : CState) (sid : String) (sess : VSession)
      (hl : lookupS s.core.sessions sid = some sess) :
      CStep s ⟨⟨storeS s.core.sessions sid (closeBeginUpd sess),
                s.core.next_key⟩, s.orphans⟩
  | closeFinish (s : CState) (sid : String) (sess : VSession)
      (hl : lookupS s.core.sessions sid = some sess)
      (hcl : sess.closing = true) :
      CStep s ⟨⟨eraseS s.core.sessions sid, s.core.next_key⟩, s.orphans⟩
  | orphanStart (s : CState) (sid : String) (sess : VSession)
      (l1 l2 : List OrphanTask)
      (ho : s.orphans = l1 ++ ⟨sid, none⟩ :: l2)
      (hl : lookupS s.core.sessions sid = some sess) :
      CStep s ⟨⟨storeS s.core.sessions sid (orphanStartUpd sess),
                s.core.next_key⟩, l1 ++ ⟨sid, some sess.key⟩ :: l2⟩
  | orphanStartMiss (s : CState) (sid : String) (l1 l2 : List OrphanTask)
      (ho : s.orphans = l1 ++ ⟨sid, none⟩ :: l2)
      (hl : lookupS s.core.sessions sid = none) :
      CStep s ⟨s.core, l1 ++ l2⟩
  | orphanOk (s : CState) (sid : String) (k handle : Nat) (sess : VSession)
      (l1 l2 : List OrphanTask)
      (ho : s.orphans = l1 ++ ⟨sid, some k⟩ :: l2)
      (hl : lookupS s.core.sessions sid = some sess)
      (hk : sess.key = k) :
      CStep s ⟨⟨storeS s.core.sessions sid (orphanOkUpd sess handle),
                s.core.next_key⟩, l1 ++ l2⟩
  | orphanFail (s : CState) (sid : String) (k : Nat) (sess : VSession)
      (l1 l2 : List OrphanTask)
      (ho : s.orphans = l1 ++ ⟨sid, some k⟩ :: l2)
      (hl : lookupS s.core.sessions sid = some sess)
      (hk : sess.key = k) :
      CStep s ⟨⟨storeS s.core.sessions sid (orphanFailUpd sess),
                s.core.next_key⟩, l1 ++ l2⟩
  | orphanMiss (s : CState) (sid : String) (k : Nat)
      (l1 l2 : List OrphanTask)
      (ho : s.orphans = l1 ++ ⟨sid, some k⟩ :: l2)
      (hm : ∀ sess, lookupS s.core.sessions sid = some sess → sess.key ≠ k) :
      CStep s ⟨s.core, l1 ++ l2⟩

/-- The manager starts with an empty registry. -/
def initState : MState := ⟨[], 0⟩

/-- Startup state: empty registry, no orphaned tasks. -/
def cinitState : CState := ⟨initState, []⟩

/-- States the manager can reach from startup, all interleavings (the
collision ones included). -/
inductive CReach : CState → Prop
  | init : CReach cinitState
  | step {s s' : CState} : CReach s → CStep s s' → CReach s'

/-- States reached through collision-free executions: no `create_session`
ever orphaned an establishment task, so the orphan pool is empty at every
step. -/
inductive ReachNC : CState → Prop
  | init : ReachNC cinitState
  | step {s s' : CState} : ReachNC s → CStep s s' → s'.orphans = [] →
      ReachNC s'

/-- Per-session invariant of collision-free executions (established along
`ReachNC` by `reachNC_minv`; for what holds in every interleaving see
`WeakInv`): object keys are in the past of the identity counter; an own
task that has not run leaves the session PENDING with no handle; an own
task suspended at the handshake leaves it CONNECTING with no handle;
READY/IN_USE sessions hold a handle; a handle is only held in READY,
IN_USE or CLOSED; and the `closing` mark coincides with status CLOSED.
With a collision-orphaned task the handshake clauses fail — the orphan
mutates the object while the object's own `connect_pc` stands still. -/
def SessInv (next_key : Nat) (sess : VSession) : Prop :=
  sess.key < next_key
  ∧ (sess.connect_pc = ConnectTaskPC.notStarted →
      sess.status = SStatus.pending ∧ sess.gemini_session = none
      ∧ sess.has_connection_cm = false)
  ∧ (sess.connect_pc = ConnectTaskPC.awaitingHandshake →
      sess.status = SStatus.connecting ∧ sess.gemini_session = none
      ∧ sess.has_connection_cm = false)
  ∧ ((sess.status = SStatus.ready ∨ sess.status = SStatus.in_use) →
      sess.gemini_session.isSome)
  ∧ (sess.gemini_session.isSome →
      sess.status = SStatus.ready ∨ sess.status = SStatus.in_use
      ∨ sess.status = SStatus.closed)
  ∧ (sess.closing = true → sess.status = SStatus.closed)
  ∧ (sess.status = SStatus.closed → sess.closing = true)

/-- Registry-wide invariant. -/
def MInv (s : MState) : Prop :=
  ∀ sid sess, lookupS s.sessions sid = some sess → SessInv s.next_key sess

theorem sessInv_mono {n m : Nat} {sess : VSession} (h : SessInv n sess)
    (hnm : n ≤ m) : SessInv m sess :=
  ⟨Nat.lt_of_lt_of_le h.1 hnm, h.2.1, h.2.2.1, h.2.2.2.1, h.2.2.2.2.1,
   h.2.2.2.2.2.1, h.2.2.2.2.2.2⟩

theorem minv_init : MInv initState := by
  intro sid sess h
  exact absurd h (by simp [initState, lookupS])

theorem reachNC_orphans {s : CState} (h : ReachNC s) : s.orphans = [] := by
  cases h with
  | init => rfl
  | step _ _ he => exact he

theorem reachNC_creach {s : CState} (h : ReachNC s) : CReach s := by
  induction h with
  | init => exact CReach.init
  | step _ hstep _ ih => exact CReach.step ih hstep

theorem minv_step {s s' : CState} (hstep : CStep s s') (hemp : s.orphans = [])
    (hinv : MInv s.core) : MInv s'.core := by
  cases hstep with
  | create pid u now =>
      intro sid' sess' hl'
      simp only [createSession] at hl'
      rcases lookupS_storeS_cases hl' with ⟨_, rfl⟩ | ⟨_, hold⟩
      · refine ⟨Nat.lt_succ_self _, ?_, ?_, ?_, ?_, ?_, ?_⟩ <;>
          simp [newSession]
      · exact sessInv_mono (hinv _ _ hold) (Nat.le_succ _)
  | connectStart sid sess hl hpc =>
      intro sid' sess' hl'
      rcases lookupS_storeS_cases hl' with ⟨_, rfl⟩ | ⟨_, hold⟩
      · have hi := hinv _ _ hl
        obtain ⟨hst, hg, hcm⟩ := hi.2.1 hpc
        have hclosing : sess.closing = false := by
          cases hcl : sess.closing
          · rfl
          · have hc := hi.2.2.2.2.2.1 hcl
            rw [hst] at hc
            simp at hc
        refine ⟨hi.1, ?_, fun _ => ⟨rfl, hg, hcm⟩, ?_, ?_, ?_, ?_⟩
        · intro h; simp [connectStartUpd] at h
        · intro h
          rcases h with h | h <;> simp [connectStartUpd] at h
        · intro h; simp [connectStartUpd, hg] at h
        · intro h; simp [connectStartUpd, hclosing] at h
        · intro h; simp [connectStartUpd] at h
      · exact hinv _ _ hold
  | connectOk sid sess handle hl hpc =>
      intro sid' sess' hl'
      rcases lookupS_storeS_cases hl' with ⟨_, rfl⟩ | ⟨_, hold⟩
      · have hi := hinv _ _ hl
        obtain ⟨hst, hg, hcm⟩ := hi.2.2.1 hpc
        have hclosing : sess.closing = false := by
          cases hcl : sess.closing
          · rfl
          · have hc := hi.2.2.2.2.2.1 hcl
            rw [hst] at hc
            simp at hc
        refine ⟨hi.1, ?_, ?_, fun _ => by simp [connectOkUpd], fun _ => Or.inl rfl,
                ?_, ?_⟩
        · intro h; simp [connectOkUpd] at h
        · intro h; simp [connectOkUpd] at h
        · intro h; simp [connectOkUpd, hclosing] at h
        · intro h; simp [connectOkUpd] at h
      · exact hinv _ _ hold
  | connectFail sid sess hl hpc =>
      intro sid' sess' hl'
      rcases lookupS_storeS_cases hl' with ⟨_, rfl⟩ | ⟨_, hold⟩
      · have hi := hinv _ _ hl
        obtain ⟨hst, hg, hcm⟩ := hi.2.2.1 hpc
        have hclosing : sess.closing = false := by
          cases hcl : sess.closing
          · rfl
          · have hc := hi.2.2.2.2.2.1 hcl
            rw [hst] at hc
            simp at hc
        refine ⟨hi.1, ?_, ?_, ?_, ?_, ?_, ?_⟩
        · intro h; simp [connectFailUpd] at h
        · intro h; simp [connectFailUpd] at h
        · intro h
          rcases h with h | h <;> simp [connectFailUpd] at h
        · intro h; simp [connectFailUpd, hg] at h
        · intro h; simp [connectFailUpd, hclosing] at h
        · intro h; simp [connectFailUpd] at h
      · exact hinv _ _ hold
  | attach sid sess hl hst =>
      intro sid' sess' hl'
      rcases lookupS_storeS_cases hl' with ⟨_, rfl⟩ | ⟨_, hold⟩
      · have hi := hinv _ _ hl
        have hpc1 : sess.connect_pc ≠ ConnectTaskPC.notStarted := by
          intro h
          have hc := (hi.2.1 h).1
          rw [hst] at hc
          simp at hc
        have hpc2 : sess.connect_pc ≠ ConnectTaskPC.awaitingHandshake := by
          intro h
          have hc := (hi.2.2.1 h).1
          rw [hst] at hc
          simp at hc
        have hsome := hi.2.2.2.1 (Or.inl hst)
        have hclosing : sess.closing = false := by
          cases hcl : sess.closing
          · rfl
          · have hc := hi.2.2.2.2.2.1 hcl
            rw [hst] at hc
            simp at hc
        refine ⟨hi.1, ?_, ?_, fun _ => hsome,
                fun _ => Or.inr (Or.inl rfl), ?_, ?_⟩
        · intro h; exact absurd h hpc1
        · intro h; exact absurd h hpc2
        · intro h; simp [attachUpd, hclosing] at h
        · intro h; simp [attachUpd] at h
      · exact hinv _ _ hold
  | release sid sess hl hst =>
      intro sid' sess' hl'
      rcases lookupS_storeS_cases hl' with ⟨_, rfl⟩ | ⟨_, hold⟩
      · have hi := hinv _ _ hl
        have hpc1 : sess.connect_pc ≠ ConnectTaskPC.notStarted := by
          intro h
          have hc := (hi.2.1 h).1
          rw [hst] at hc
          simp at hc
        have hpc2 : sess.connect_pc ≠ ConnectTaskPC.awaitingHandshake := by
          intro h
          have hc := (hi.2.2.1 h).1
          rw [hst] at hc
          simp at hc
        have hsome := hi.2.2.2.1 (Or.inr hst)
        have hclosing : sess.closing = false := by
          cases hcl : sess.closing
          · rfl
          · have hc := hi.2.2.2.2.2.1 hcl
            rw [hst] at hc
            simp at hc
        refine ⟨hi.1, ?_, ?_, fun _ => hsome, fun _ => Or.inl rfl, ?_, ?_⟩
        · intro h; exact absurd h hpc1
        · intro h; exact absurd h hpc2
        · intro h; simp [releaseUpd, hclosing] at h
        · intro h; simp [releaseUpd] at h
      · exact hinv _ _ hold
  | closeBegin sid sess hl =>
      intro sid' sess' hl'
      rcases lookupS_storeS_cases hl' with ⟨_, rfl⟩ | ⟨_, hold⟩
      · have hi := hinv _ _ hl
        refine ⟨hi.1, ?_, ?_, ?_, fun _ => Or.inr (Or.inr rfl),
                fun _ => rfl, fun _ => rfl⟩
        · intro h; simp [closeBeginUpd] at h
        · intro h; simp [closeBeginUpd] at h
        · intro h
          rcases h with h | h <;> simp [closeBeginUpd] at h
      · exact hinv _ _ hold
  | closeFinish sid sess hl hcl =>
      intro sid' sess' hl'
      obtain ⟨hne, hold⟩ := lookupS_eraseS_cases hl'
      exact hinv _ _ hold
  | orphanStart sid sess l1 l2 ho hl =>
      rw [hemp] at ho
      exact absurd ho.symm (by simp)
  | orphanStartMiss sid l1 l2 ho hl =>
      rw [hemp] at ho
      exact absurd ho.symm (by simp)
  | orphanOk sid k handle sess l1 l2 ho hl hk =>
      rw [hemp] at ho
      exact absurd ho.symm (by simp)
  | orphanFail sid k sess l1 l2 ho hl hk =>
      rw [hemp] at ho
      exact absurd ho.symm (by simp)
  | orphanMiss sid k l1 l2 ho hm =>
      rw [hemp] at ho
      exact absurd ho.symm (by simp)

theorem reachNC_minv {s : CState} (h : ReachNC s) : MInv s.core := by
  induction h with
  | init => exact minv_init
  | step hprev hstep _ ih => exact minv_step hstep (reachNC_orphans hprev) ih

/-- Invariant that survives every interleaving, the collision ones
included: a registered READY or IN_USE session holds a non-null handle
(every step that sets READY installs one and no step clears a handle), and
a PENDING session — necessarily freshly created — holds none. -/
def WeakInv (s : CState) : Prop :=
  ∀ sid sess, lookupS s.core.sessions sid = some sess →
    ((sess.status = SStatus.ready ∨ sess.status = SStatus.in_use) →
        sess.gemini_session.isSome)
    ∧ (sess.status = SStatus.pending → sess.gemini_session = none)

theorem weakinv_init : WeakInv cinitState := by
  intro sid sess h
  exact absurd h (by simp [cinitState, initState, lookupS])

theorem weakinv_step {s s' : CState} (hstep : CStep s s') (hinv : WeakInv s) :
    WeakInv s' := by
  cases hstep with
  | create pid u now =>
      intro sid' sess' hl'
      simp only [createSession] at hl'
      rcases lookupS_storeS_cases hl' with ⟨_, rfl⟩ | ⟨_, hold⟩
      · constructor <;> simp [newSession]
      · exact hinv _ _ hold
  | connectStart sid sess hl hpc =>
      intro sid' sess' hl'
      rcases lookupS_storeS_cases hl' with ⟨_, rfl⟩ | ⟨_, hold⟩
      · constructor
        · intro h
          rcases h with h | h <;> simp [connectStartUpd] at h
        · intro h
          simp [connectStartUpd] at h
      · exact hinv _ _ hold
  | connectOk sid sess handle hl hpc =>
      intro sid' sess' hl'
      rcases lookupS_storeS_cases hl' with ⟨_, rfl⟩ | ⟨_, hold⟩
      · constructor
        · intro _
          simp [connectOkUpd]
        · intro h
          simp [connectOkUpd] at h
      · exact hinv _ _ hold
  | connectFail sid sess hl hpc =>
      intro sid' sess' hl'
      rcases lookupS_storeS_cases hl' with ⟨_, rfl⟩ | ⟨_, hold⟩
      · constructor
        · intro h
          rcases h with h | h <;> simp [connectFailUpd] at h
        · intro h
          simp [connectFailUpd] at h
      · exact hinv _ _ hold
  | attach sid sess hl hst =>
      intro sid' sess' hl'
      rcases lookupS_storeS_cases hl' with ⟨_, rfl⟩ | ⟨_, hold⟩
      · constructor
        · intro _
          exact (hinv _ _ hl).1 (Or.inl hst)
        · intro h
          simp [attachUpd] at h
      · exact hinv _ _ hold
  | release sid sess hl hst =>
      intro sid' sess' hl'
      rcases lookupS_storeS_cases hl' with ⟨_, rfl⟩ | ⟨_, hold⟩
      · constructor
        · intro _
          exact (hinv _ _ hl).1 (Or.inr hst)
        · intro h
          simp [releaseUpd] at h
      · exact hinv _ _ hold
  | closeBegin sid sess hl =>
      intro sid' sess' hl'
      rcases lookupS_storeS_cases hl' with ⟨_, rfl⟩ | ⟨_, hold⟩
      · constructor
        · intro h
          rcases h with h | h <;> simp [closeBeginUpd] at h
        · intro h
          simp [closeBeginUpd] at h
      · exact hinv _ _ hold
  | closeFinish sid sess hl hcl =>
      intro sid' sess' hl'
      obtain ⟨_, hold⟩ := lookupS_eraseS_cases hl'
      exact hinv _ _ hold
  | orphanStart sid sess l1 l2 ho hl =>
      intro sid' sess' hl'
      rcases lookupS_storeS_cases hl' with ⟨_, rfl⟩ | ⟨_, hold⟩
      · constructor
        · intro h
          rcases h with h | h <;> simp [orphanStartUpd] at h
        · intro h
          simp [orphanStartUpd] at h
      · exact hinv _ _ hold
  | orphanStartMiss sid l1 l2 ho hl =>
      exact fun sid' sess' hl' => hinv sid' sess' hl'
  | orphanOk sid k handle sess l1 l2 ho hl hk =>
      intro sid' sess' hl'
      rcases lookupS_storeS_cases hl' with ⟨_, rfl⟩ | ⟨_, hold⟩
      · constructor
        · intro _
          simp [orphanOkUpd]
        · intro h
          simp [orphanOkUpd] at h
      · exact hinv _ _ hold
  | orphanFail sid k sess l1 l2 ho hl hk =>
      intro sid' sess' hl'
      rcases lookupS_storeS_cases hl' with ⟨_, rfl⟩ | ⟨_, hold⟩
      · constructor
        · intro h
          rcases h with h | h <;> simp [orphanFailUpd] at h
        · intro h
          simp [orphanFailUpd] at h
      · exact hinv _ _ hold
  | orphanMiss sid k l1 l2 ho hm =>
      exact fun sid' sess' hl' => hinv sid' sess' hl'

theorem creach_weakinv {s : CState} (h : CReach s) : WeakInv s := by
  induction h with
  | init => exact weakinv_init
  | step _ hstep ih => exact weakinv_step hstep ih

/-- The status edges asserted by the claim (spec §4.1): the linear
lifecycle, the handshake-failure edge, and close from READY/ERROR/CLOSED. -/
def specEdge : SStatus → SStatus → Bool
  | SStatus.pending, SStatus.connecting => true
  | SStatus.connecting, SStatus.ready => true
  | SStatus.connecting, SStatus.sessError => true
  | SStatus.ready, SStatus.in_use => true
  | SStatus.in_use, SStatus.ready => true
  | SStatus.ready, SStatus.closed => true
  | SStatus.sessError, SStatus.closed => true
  | SStatus.closed, SStatus.closed => true
  | _, _ => false

/-- The edge set the code actually respects: the claim's edges plus the
direct moves to CLOSED from PENDING, CONNECTING and IN_USE, because
`close_session` sets `status = CLOSED` unconditionally whatever the
current status. -/
def codeEdge (a b : SStatus) : Bool :=
  specEdge a b || decide (b = SStatus.closed)

/-- A concrete UUID string as drawn by `uuid.uuid4()`. -/
def exU : String := "123e4567-e89b-42d3-a456-426614174000"

/-- Its 8-character truncation, used as the session id. -/
def exSid : String := makeSessionId exU

/-- The session object allocated by the concrete `create_session` call. -/
def exSess1 : VSession := newSession 0 exSid "p1" 0

/-- Manager state after one `create_session` from startup. -/
def exS1 : MState := (createSession initState "p1" exU 0).2

/-- The same session once `_connect_session` has set CONNECTING. -/
def exSess2 : VSession := connectStartUpd exSess1

/-- Manager state with the establishment task at the handshake `await`. -/
def exS2 : MState := ⟨storeS exS1.sessions exSid exSess2, exS1.next_key⟩

/-- The same session once the handshake succeeded (handle 7, READY). -/
def exSess3 : VSession := connectOkUpd exSess2 7

/-- Manager state with the session READY. -/
def exS3 : MState := ⟨storeS exS2.sessions exSid exSess3, exS2.next_key⟩

/-- The same session after `close_session`'s first atomic block. -/
def exSess4 : VSession := closeBeginUpd exSess3

/-- Manager state while `close_session` is awaiting the upstream
`__aexit__`: session still registered, CLOSED, handle still set. -/
def exS4 : MState := ⟨storeS exS3.sessions exSid exSess4, exS3.next_key⟩

/-- The concrete run in the full state: no orphaned tasks arise, every
create here draws a fresh id. -/
def cexS1 : CState := ⟨exS1, []⟩

/-- Concrete state with the establishment task at its handshake. -/
def cexS2 : CState := ⟨exS2, []⟩

/-- Concrete state with the session READY. -/
def cexS3 : CState := ⟨exS3, []⟩

/-- Concrete state mid-close: CLOSED, still registered, handle still set. -/
def cexS4 : CState := ⟨exS4, []⟩

theorem cexS1_reach : ReachNC cexS1 :=
  ReachNC.step ReachNC.init (CStep.create cinitState "p1" exU 0) rfl

theorem cexS2_reach : ReachNC cexS2 :=
  ReachNC.step cexS1_reach
    (CStep.connectStart cexS1 exSid exSess1 (by decide) (by decide)) rfl

theorem cexS3_reach : ReachNC cexS3 :=
  ReachNC.step cexS2_reach
    (CStep.connectOk cexS2 exSid exSess2 7 (by decide) (by decide)) rfl

theorem cexS4_reach : ReachNC cexS4 :=
  ReachNC.step cexS3_reach
    (CStep.closeBegin cexS3 exSid exSess3 (by decide)) rfl

/-- C1, counterexample: in the reachable state right after `create_session`
— reachable even collision-free — the session is PENDING, and
`close_session`'s first atomic block is a manager step that moves it
straight to CLOSED; `specEdge pending closed` is not an edge the claim
allows (it permits CLOSED only from READY, ERROR or CLOSED). -/
theorem pending_to_closed_cex :
    ReachNC cexS1
    ∧ CStep cexS1 ⟨⟨storeS exS1.sessions exSid (closeBeginUpd exSess1),
        exS1.next_key⟩, []⟩
    ∧ lookupS exS1.sessions exSid = some exSess1
    ∧ exSess1.status = SStatus.pending
    ∧ lookupS (storeS exS1.sessions exSid (closeBeginUpd exSess1)) exSid
        = some (closeBeginUpd exSess1)
    ∧ (closeBeginUpd exSess1).key = exSess1.key
    ∧ (closeBeginUpd exSess1).status = SStatus.closed
    ∧ specEdge SStatus.pending SStatus.closed = false :=
  ⟨cexS1_reach, CStep.closeBegin cexS1 exSid exSess1 (by decide), by decide,
   by decide, by decide, by decide, by decide, by decide⟩

/-- C1 (amended): in any execution in which no `create_session` collision
orphans an establishment task, every atomic manager step (create, the
establishment task, attach, release, close — the sweeper closes through
`close_session`) moves a registered session's status along the claim's
edges extended with the direct edges PENDING→CLOSED, CONNECTING→CLOSED and
IN_USE→CLOSED, which `close_session` takes because it sets CLOSED
unconditionally.  The model includes the collision interleavings — an
orphaned task adopts the replacement session at its first run
(`orphanStart`…) and can drive it to CONNECTING, READY or ERROR from other
states — and the theorem quantifies over the executions without them. -/
theorem status_edges_amended {s s' : CState} (hnc : ReachNC s)
    (hstep : CStep s s') (sid : String) (a b : VSession)
    (ha : lookupS s.core.sessions sid = some a)
    (hb : lookupS s'.core.sessions sid = some b)
    (hkey : a.key = b.key) :
    a.status = b.status ∨ codeEdge a.status b.status = true := by
  have hemp := reachNC_orphans hnc
  have hinv := reachNC_minv hnc
  cases hstep with
  | create pid u now =>
      simp only [createSession] at hb
      rcases lookupS_storeS_cases hb with ⟨heq, rfl⟩ | ⟨hne, hold⟩
      · have hlt := (hinv _ _ ha).1
        rw [hkey] at hlt
        simp only [newSession] at hlt
        exact absurd hlt (Nat.lt_irrefl _)
      · rw [ha] at hold
        obtain rfl : a = b := Option.some_inj.mp hold
        exact Or.inl rfl
  | connectStart sid0 sess hl hpc =>
      rcases lookupS_storeS_cases hb with ⟨heq, rfl⟩ | ⟨hne, hold⟩
      · subst heq
        rw [ha] at hl
        obtain rfl : a = sess := Option.some_inj.mp hl
        have hst := ((hinv _ _ ha).2.1 hpc).1
        refine Or.inr ?_
        rw [hst]
        rfl
      · rw [ha] at hold
        obtain rfl : a = b := Option.some_inj.mp hold
        exact Or.inl rfl
  | connectOk sid0 sess handle hl hpc =>
      rcases lookupS_storeS_cases hb with ⟨heq, rfl⟩ | ⟨hne, hold⟩
      · subst heq
        rw [ha] at hl
        obtain rfl : a = sess := Option.some_inj.mp hl
        have hst := ((hinv _ _ ha).2.2.1 hpc).1
        refine Or.inr ?_
        rw [hst]
        rfl
      · rw [ha] at hold
        obtain rfl : a = b := Option.some_inj.mp hold
        exact Or.inl rfl
  | connectFail sid0 sess hl hpc =>
      rcases lookupS_storeS_cases hb with ⟨heq, rfl⟩ | ⟨hne, hold⟩
      · subst heq
        rw [ha] at hl
        obtain rfl : a = sess := Option.some_inj.mp hl
        have hst := ((hinv _ _ ha).2.2.1 hpc).1
        refine Or.inr ?_
        rw [hst]
        rfl
      · rw [ha] at hold
        obtain rfl : a = b := Option.some_inj.mp hold
        exact Or.inl rfl
  | attach sid0 sess hl hst =>
      rcases lookupS_storeS_cases hb with ⟨heq, rfl⟩ | ⟨hne, hold⟩
      · subst heq
        rw [ha] at hl
        obtain rfl : a = sess := Option.some_inj.mp hl
        refine Or.inr ?_
        rw [hst]
        rfl
      · rw [ha] at hold
        obtain rfl : a = b := Option.some_inj.mp hold
        exact Or.inl rfl
  | release sid0 sess hl hst =>
      rcases lookupS_storeS_cases hb with ⟨heq, rfl⟩ | ⟨hne, hold⟩
      · subst heq
        rw [ha] at hl
        obtain rfl : a = sess := Option.some_inj.mp hl
        refine Or.inr ?_
        rw [hst]
        rfl
      · rw [ha] at hold
        obtain rfl : a = b := Option.some_inj.mp hold
        exact Or.inl rfl
  | closeBegin sid0 sess hl =>
      rcases lookupS_storeS_cases hb with ⟨heq, rfl⟩ | ⟨hne, hold⟩
      · refine Or.inr ?_
        show codeEdge a.status SStatus.closed = true
        simp [codeEdge]
      · rw [ha] at hold
        obtain rfl : a = b := Option.some_inj.mp hold
        exact Or.inl rfl
  | closeFinish sid0 sess hl hcl =>
      obtain ⟨hne, hold⟩ := lookupS_eraseS_cases hb
      rw [ha] at hold
      obtain rfl : a = b := Option.some_inj.mp hold
      exact Or.inl rfl
  | orphanStart sid0 sess l1 l2 ho hl =>
      rw [hemp] at ho
      exact absurd ho.symm (by simp)
  | orphanStartMiss sid0 l1 l2 ho hl =>
      rw [hemp] at ho
      exact absurd ho.symm (by simp)
  | orphanOk sid0 k handle sess l1 l2 ho hl hk =>
      rw [hemp] at ho
      exact absurd ho.symm (by simp)
  | orphanFail sid0 k sess l1 l2 ho hl hk =>
      rw [hemp] at ho
      exact absurd ho.symm (by simp)
  | orphanMiss sid0 k l1 l2 ho hm =>
      rw [hemp] at ho
      exact absurd ho.symm (by simp)

/-- Witness for the amended C1 at a concrete step: the establishment
task's first block moves the created session PENDING→CONNECTING. -/
theorem status_edges_amended_witness :
    exSess1.status = exSess2.status
    ∨ codeEdge exSess1.status exSess2.status = true :=
  status_edges_amended cexS1_reach
    (CStep.connectStart cexS1 exSid exSess1 (by decide) (by decide))
    exSid exSess1 exSess2 (by decide) (by decide) (by decide)

/-- C4, counterexample: a reachable state — reachable even collision-free —
whose registry holds a CLOSED session with a non-null upstream handle:
`close_session` has run its first block (setting CLOSED) and suspends
awaiting the upstream `__aexit__`, and it never nulls `gemini_session`;
the claim says CLOSED sessions hold no handle. -/
theorem closed_with_handle_cex :
    ReachNC cexS4
    ∧ lookupS cexS4.core.sessions exSid = some exSess4
    ∧ exSess4.status = SStatus.closed
    ∧ exSess4.gemini_session = some 7 :=
  ⟨cexS4_reach, by decide, by decide, by decide⟩

/-- C4 (amended): in every reachable state — all interleavings, the
collision ones included — a registered session in READY or IN_USE holds a
non-null upstream handle, and a non-null handle means the session has left
PENDING; in executions without collision-orphaned tasks, a non-null handle
moreover implies READY, IN_USE, or CLOSED while a `close_session` call is
between setting CLOSED and popping the entry, and in particular no
CONNECTING or ERROR session holds a non-null handle.  With an orphaned
task the stronger parts fail: the orphan's failure resume leaves ERROR
with the handle another task installed, and its first run sets CONNECTING
on a handle-holding session. -/
theorem handle_iff_active {s : CState} (hreach : CReach s) (sid : String)
    (sess : VSession) (hl : lookupS s.core.sessions sid = some sess) :
    ((sess.status = SStatus.ready ∨ sess.status = SStatus.in_use) →
        sess.gemini_session.isSome)
    ∧ (sess.gemini_session.isSome → sess.status ≠ SStatus.pending)
    ∧ (ReachNC s →
        (sess.gemini_session.isSome →
          sess.status = SStatus.ready ∨ sess.status = SStatus.in_use
          ∨ (sess.status = SStatus.closed ∧ sess.closing = true))
        ∧ ((sess.status = SStatus.connecting
            ∨ sess.status = SStatus.sessError) →
            sess.gemini_session = none)) := by
  have hw := creach_weakinv hreach _ _ hl
  refine ⟨hw.1, ?_, ?_⟩
  · intro hs hp
    rw [hw.2 hp] at hs
    simp at hs
  · intro hnc
    have hi := reachNC_minv hnc _ _ hl
    constructor
    · intro hs
      rcases hi.2.2.2.2.1 hs with h | h | h
      · exact Or.inl h
      · exact Or.inr (Or.inl h)
      · exact Or.inr (Or.inr ⟨h, hi.2.2.2.2.2.2 h⟩)
    · intro hs
      cases hg : sess.gemini_session with
      | none => rfl
      | some v =>
          have hsts := hi.2.2.2.2.1 (by simp [hg])
          rcases hs with h | h <;> rcases hsts with h2 | h2 | h2 <;>
            (rw [h] at h2; simp at h2)

/-- Witness for the amended C4 at the concrete READY state, both the
unconditional parts and, the run being collision-free, the stronger
parts. -/
theorem handle_iff_active_witness :
    ((exSess3.status = SStatus.ready ∨ exSess3.status = SStatus.in_use) →
        exSess3.gemini_session.isSome)
    ∧ (exSess3.gemini_session.isSome → exSess3.status ≠ SStatus.pending)
    ∧ (exSess3.gemini_session.isSome →
          exSess3.status = SStatus.ready ∨ exSess3.status = SStatus.in_use
          ∨ (exSess3.status = SStatus.closed ∧ exSess3.closing = true))
    ∧ ((exSess3.status = SStatus.connecting
        ∨ exSess3.status = SStatus.sessError) →
        exSess3.gemini_session = none) :=
  ⟨(handle_iff_active (reachNC_creach cexS3_reach) exSid exSess3 (by decide)).1,
   (handle_iff_active (reachNC_creach cexS3_reach) exSid exSess3 (by decide)).2.1,
   ((handle_iff_active (reachNC_creach cexS3_reach) exSid exSess3
      (by decide)).2.2 cexS3_reach).1,
   ((handle_iff_active (reachNC_creach cexS3_reach) exSid exSess3
      (by decide)).2.2 cexS3_reach).2⟩

/-- Second session object stored under the colliding id by the second
`create_session`. -/
def colSess2 : VSession := newSession 1 exSid "p2" 1

/-- State after the collision: the replacement is registered and the first
create's establishment task is orphaned, not yet run. -/
def colS2 : CState := ⟨⟨storeS exS1.sessions exSid colSess2, 2⟩, [⟨exSid, none⟩]⟩

/-- The replacement once its own task set CONNECTING. -/
def colSess3 : VSession := connectStartUpd colSess2

/-- State with the replacement's own task at its handshake. -/
def colS3 : CState := ⟨⟨storeS colS2.core.sessions exSid colSess3, 2⟩,
                       [⟨exSid, none⟩]⟩

/-- The replacement once its own handshake succeeded (handle 5, READY). -/
def colSess4 : VSession := connectOkUpd colSess3 5

/-- State with the replacement READY, the orphan still unrun. -/
def colS4 : CState := ⟨⟨storeS colS3.core.sessions exSid colSess4, 2⟩,
                       [⟨exSid, none⟩]⟩

/-- The replacement after the orphan's first run adopted it:
READY→CONNECTING on a handle-holding session. -/
def colSess5 : VSession := orphanStartUpd colSess4

/-- State with the orphan suspended at its own handshake. -/
def colS5 : CState := ⟨⟨storeS colS4.core.sessions exSid colSess5, 2⟩,
                       [⟨exSid, some 1⟩]⟩

/-- The replacement after the orphan's handshake failed: ERROR, with the
handle its own task installed still non-null. -/
def colSess6 : VSession := orphanFailUpd colSess5

/-- Final state of the collision run. -/
def colS6 : CState := ⟨⟨storeS colS5.core.sessions exSid colSess6, 2⟩, []⟩

theorem colS6_reach : CReach colS6 :=
  CReach.step (CReach.step (CReach.step (CReach.step (CReach.step
    (reachNC_creach cexS1_reach)
    (CStep.create cexS1 "p2" exU 1))
    (CStep.connectStart colS2 exSid colSess2 (by decide) (by decide)))
    (CStep.connectOk colS3 exSid colSess3 5 (by decide) (by decide)))
    (CStep.orphanStart colS4 exSid colSess4 [] [] rfl (by decide)))
    (CStep.orphanFail colS5 exSid 1 colSess5 [] [] rfl (by decide) (by decide))

/-- The collision interleavings the step relation must contain, exercised
end to end: an id collision orphans the first establishment task; the
orphan later adopts the (by then READY) replacement — READY→CONNECTING on
one and the same handle-holding object — and its failure resume leaves a
registered ERROR session whose handle is still non-null.  These are the
reachable behaviors that keep the original C1/C4 invariants from holding
unconditionally and force the collision-free proviso of their amended
forms. -/
theorem collision_interleaving_demo :
    CReach colS6
    ∧ lookupS colS4.core.sessions exSid = some colSess4
    ∧ colSess4.status = SStatus.ready
    ∧ lookupS colS5.core.sessions exSid = some colSess5
    ∧ colSess5.status = SStatus.connecting
    ∧ colSess5.gemini_session = some 5
    ∧ lookupS colS6.core.sessions exSid = some colSess6
    ∧ colSess6.status = SStatus.sessError
    ∧ colSess6.gemini_session = some 5
    ∧ colSess4.key = colSess5.key
    ∧ colSess5.key = colSess6.key :=
  ⟨colS6_reach, by decide, by decide, by decide, by decide, by decide,
   by decide, by decide, by decide, by decide, by decide⟩

/-- A tool call received from the upstream model (one `fc` in
`handle_tool_call`'s loop over `tool_call.function_calls`). -/
structure FunctionCall where
  id : Nat
  name : String
  args : List (String × String)
  deriving DecidableEq, Repr

/-- The response for one call, as built by
`types.FunctionResponse(id=fc.id, name=function_name, response={"result": result})`. -/
structure FunctionResponse where
  id : Nat
  name : String
  result : String
  deriving DecidableEq, Repr

/-- The status strings passed to `send_tool_notification`. -/
inductive ToolStatus
  | executing
  | completed
  | failed
  deriving DecidableEq, Repr

/-- One `send_tool_notification(tool_name, status, result)` payload written
to the client transport (its own exceptions are caught inside it). -/
structure ToolNotification where
  tool : String
  tstatus : ToolStatus
  result : Option String
  deriving DecidableEq, Repr

/-- The per-tool bodies of `handle_tool_call`'s `if/elif` chain.  Every
branch calls external collaborators (`canvas_ops`, `side_agent`), so the
chain is abstracted as an environment mapping tool name and arguments to
either a result string or the message of a raised exception. -/
abbrev ToolHandler := String → List (String × String) → Except String String

/-- The per-call `except` clause:
`result = f"Error executing {function_name}: {str(tool_error)}"`. -/
def errorResult (name msg : String) : String :=
  "Error executing " ++ name ++ ": " ++ msg

/-- One iteration of `handle_tool_call`'s loop: notify "executing"; run the
tool branch; on exception set the error result and notify "failed"; append
the `FunctionResponse`; then notify "completed" — unconditionally, because
that call sits after the `try/except`, on both paths. -/
def dispatchOne (h : ToolHandler) (fc : FunctionCall) :
    FunctionResponse × List ToolNotification :=
  match h fc.name fc.args with
  | Except.ok res =>
      (⟨fc.id, fc.name, res⟩,
       [⟨fc.name, ToolStatus.executing, none⟩,
        ⟨fc.name, ToolStatus.completed, some res⟩])
  | Except.error msg =>
      (⟨fc.id, fc.name, errorResult fc.name msg⟩,
       [⟨fc.name, ToolStatus.executing, none⟩,
        ⟨fc.name, ToolStatus.failed, some (errorResult fc.name msg)⟩,
        ⟨fc.name, ToolStatus.completed, some (errorResult fc.name msg)⟩])

/-- `handle_tool_call` over the whole batch: collect the function responses
(sent back upstream in one `session.send`) and the notification trace.  A
raising handler is contained by the per-call `except`, so the function is
total. -/
def handleToolCall (h : ToolHandler) (fcs : List FunctionCall) :
    List FunctionResponse × List ToolNotification :=
  match fcs with
  | [] => ([], [])
  | fc :: rest =>
      let d := dispatchOne h fc
      let r := handleToolCall h rest
      (d.1 :: r.1, d.2 ++ r.2)

/-- One event read from the upstream handle inside `receive_audio`. -/
inductive UpEvent
  | frameEv (d : Nat)
  | toolCallEv (fcs : List FunctionCall)
  deriving DecidableEq, Repr

/-- `receive_audio`: audio payloads are enqueued to the client-bound queue
immediately (`self.audio_in_queue.put_nowait(data)`); tool-call events are
dispatched fire-and-forget via `asyncio.create_task(self.handle_tool_call(...))`.
Returns the enqueued audio in order, plus the outcome of every spawned
dispatch. -/
def receiveAudio (h : ToolHandler) (events : List UpEvent) :
    List Nat × List (List FunctionResponse × List ToolNotification) :=
  match events with
  | [] => ([], [])
  | UpEvent.frameEv d :: rest =>
      let r := receiveAudio h rest
      (d :: r.1, r.2)
  | UpEvent.toolCallEv fcs :: rest =>
      let r := receiveAudio h rest
      (r.1, handleToolCall h fcs :: r.2)

/-- C5: a raising tool handler is contained.  For every call in the batch
whose handler raises, `handle_tool_call` still returns a FunctionResponse
for that call whose result string encodes the error message, and the
exception does not escape the per-call handling (the dispatch is total);
the audio path of `receive_audio` is unaffected — the audio it enqueues is
the same whatever the handlers do, including raising ones. -/
theorem tool_failure_contained :
    (∀ (h : ToolHandler) (fcs : List FunctionCall) (fc : FunctionCall) (msg : String),
      fc ∈ fcs → h fc.name fc.args = Except.error msg →
      (⟨fc.id, fc.name, errorResult fc.name msg⟩ : FunctionResponse)
        ∈ (handleToolCall h fcs).1)
    ∧ (∀ (h : ToolHandler) (fcs : List FunctionCall),
      (handleToolCall h fcs).1.length = fcs.length)
    ∧ (∀ (h1 h2 : ToolHandler) (events : List UpEvent),
      (receiveAudio h1 events).1 = (receiveAudio h2 events).1) := by
  refine ⟨?_, ?_, ?_⟩
  · intro h fcs fc msg hmem herr
    induction fcs with
    | nil => cases hmem
    | cons fc0 rest ih =>
        rcases List.mem_cons.mp hmem with rfl | hmem'
        · simp [handleToolCall, dispatchOne, herr]
        · simp only [handleToolCall, List.mem_cons]
          exact Or.inr (ih hmem')
  · intro h fcs
    induction fcs with
    | nil => rfl
    | cons fc0 rest ih => simp [handleToolCall, ih]
  · intro h1 h2 events
    induction events with
    | nil => rfl
    | cons e rest ih =>
        cases e with
        | frameEv d => simp [receiveAudio, ih]
        | toolCallEv fcs => simp [receiveAudio, ih]

/-- Witness for C5: a concrete raising handler yields a response encoding
the error, and the audio stream around the failing call is unchanged. -/
theorem tool_failure_contained_witness :
    (⟨1, "create_task", errorResult "create_task" "boom"⟩ : FunctionResponse)
      ∈ (handleToolCall (fun _ _ => Except.error "boom")
          [⟨1, "create_task", [("query", "x")]⟩]).1
    ∧ (receiveAudio (fun _ _ => Except.error "boom")
        [UpEvent.frameEv 10, UpEvent.toolCallEv [⟨1, "create_task", []⟩],
         UpEvent.frameEv 11]).1
      = (receiveAudio (fun _ _ => Except.ok "fine")
        [UpEvent.frameEv 10, UpEvent.toolCallEv [⟨1, "create_task", []⟩],
         UpEvent.frameEv 11]).1 :=
  ⟨tool_failure_contained.1 (fun _ _ => Except.error "boom")
      [⟨1, "create_task", [("query", "x")]⟩] ⟨1, "create_task", [("query", "x")]⟩
      "boom" (by simp) rfl,
   tool_failure_contained.2.2 (fun _ _ => Except.error "boom")
      (fun _ _ => Except.ok "fine")
      [UpEvent.frameEv 10, UpEvent.toolCallEv [⟨1, "create_task", []⟩],
       UpEvent.frameEv 11]⟩

/-- A handler environment in which every tool raises. -/
def failH : ToolHandler := fun _ _ => Except.error "boom"

/-- A concrete tool call used in the C6 counterexample. -/
def exFc : FunctionCall := ⟨1, "create_task", [("query", "x")]⟩

/-- C6, counterexample: when the handler raises, a single dispatch emits
BOTH terminal notifications — "failed" from the `except` clause and then
"completed" from the unconditional call after the `try/except` — so the
trace is [executing, failed, completed], not "exactly one terminal
notification, never both". -/
theorem both_terminal_notifications_cex :
    (dispatchOne failH exFc).2
      = [⟨"create_task", ToolStatus.executing, none⟩,
         ⟨"create_task", ToolStatus.failed,
            some (errorResult "create_task" "boom")⟩,
         ⟨"create_task", ToolStatus.completed,
            some (errorResult "create_task" "boom")⟩]
    ∧ (⟨"create_task", ToolStatus.failed,
          some (errorResult "create_task" "boom")⟩ : ToolNotification)
        ∈ (dispatchOne failH exFc).2
    ∧ (⟨"create_task", ToolStatus.completed,
          some (errorResult "create_task" "boom")⟩ : ToolNotification)
        ∈ (dispatchOne failH exFc).2 := by
  refine ⟨rfl, ?_, ?_⟩ <;> simp [dispatchOne, failH, exFc]

/-- C6 (amended): every dispatch emits "executing" first and then, on
success, exactly one terminal notification ("completed"); on handler
exception it emits "failed" followed ALSO by "completed", because the
completed-notification is sent unconditionally after the except block. -/
theorem tool_notification_order (h : ToolHandler) (fc : FunctionCall) :
    (∃ res, h fc.name fc.args = Except.ok res ∧
      (dispatchOne h fc).2
        = [⟨fc.name, ToolStatus.executing, none⟩,
           ⟨fc.name, ToolStatus.completed, some res⟩])
    ∨ (∃ msg, h fc.name fc.args = Except.error msg ∧
      (dispatchOne h fc).2
        = [⟨fc.name, ToolStatus.executing, none⟩,
           ⟨fc.name, ToolStatus.failed, some (errorResult fc.name msg)⟩,
           ⟨fc.name, ToolStatus.completed, some (errorResult fc.name msg)⟩]) := by
  cases hh : h fc.name fc.args with
  | ok res => exact Or.inl ⟨res, rfl, by simp [dispatchOne, hh]⟩
  | error msg => exact Or.inr ⟨msg, rfl, by simp [dispatchOne, hh]⟩

/-- The `while not self.audio_in_queue.empty(): get_nowait()` drain loop of
`stop_speaking`, threading the `cleared` counter. -/
def drainLoop : List Nat → Nat → List Nat × Nat
  | [], cleared => ([], cleared)
  | _ :: rest, cleared => drainLoop rest (cleared + 1)

/-- Handler state touched by `stop_speaking` and `listen_audio`:
`audio_in_queue` (upstream→client, the client-bound buffer), `out_queue`
(client→upstream) and the `should_stop` flag. -/
structure RelayState where
  audio_in_queue : List Nat
  out_queue : List Nat
  should_stop : Bool
  deriving DecidableEq, Repr

/-- `stop_speaking`: set `self.should_stop = True`, then drain the
client-bound queue.  The whole body runs without an `await`, hence in one
atomic block. -/
def stopSpeaking (st : RelayState) : RelayState × Nat :=
  let d := drainLoop st.audio_in_queue 0
  ({ st with audio_in_queue := d.1, should_stop := true }, d.2)

/-- One message received by `listen_audio`: a text frame that parses to
`{"type":"stop"}`, any other text frame, or a binary audio frame. -/
inductive ClientMsg
  | stopMsg
  | otherText
  | bytesMsg (d : Nat)
  deriving DecidableEq, Repr

/-- One iteration of `listen_audio`'s loop: a "stop" text frame calls
`stop_speaking` and continues; other text frames are ignored; a binary
frame is enqueued on the upstream-bound queue. -/
def listenStep (st : RelayState) (m : ClientMsg) : RelayState :=
  match m with
  | ClientMsg.stopMsg => (stopSpeaking st).1
  | ClientMsg.otherText => st
  | ClientMsg.bytesMsg d => { st with out_queue := st.out_queue ++ [d] }

theorem drainLoop_spec (q : List Nat) (n : Nat) :
    drainLoop q n = ([], n + q.length) := by
  induction q generalizing n with
  | nil => simp [drainLoop]
  | cons x rest ih =>
      rw [drainLoop, ih]
      simp [Nat.add_comm, Nat.add_assoc, Nat.add_left_comm]

/-- C7: receiving `{"type":"stop"}` while the client-bound queue holds N
buffered frames discards all N: the queue is empty when the handling
completes (and, the drain loop containing no `await`, no client-audio-out
write can interleave with it); the cleared counter equals N, the stop flag
is set, and the upstream-bound queue is untouched. -/
theorem stop_drains_outbound (st : RelayState) :
    (listenStep st ClientMsg.stopMsg).audio_in_queue = []
    ∧ (stopSpeaking st).2 = st.audio_in_queue.length
    ∧ (listenStep st ClientMsg.stopMsg).should_stop = true
    ∧ (listenStep st ClientMsg.stopMsg).out_queue = st.out_queue := by
  refine ⟨?_, ?_, rfl, rfl⟩
  · simp [listenStep, stopSpeaking, drainLoop_spec]
  · simp [stopSpeaking, drainLoop_spec]

/-- State of the client→upstream direction: the frames the client will
still deliver, the upstream-bound FIFO `out_queue`, and the frames already
forwarded to the upstream handle, in send order. -/
structure UpstreamFlow where
  toProduce : List Nat
  queue : List Nat
  sentUp : List Nat
  deriving DecidableEq, Repr

/-- Interleaving of the two relay tasks that share `out_queue`:
`listen_audio` appends the next client frame
(`await self.out_queue.put({"data": data, ...})`), and
`send_audio_to_gemini` pops the head and forwards it
(`audio_data = await self.out_queue.get(); await self.session.send(...)`). -/
inductive FlowStep : UpstreamFlow → UpstreamFlow → Prop
  | produce (f : Nat) (ps q snt : List Nat) :
      FlowStep ⟨f :: ps, q, snt⟩ ⟨ps, q ++ [f], snt⟩
  | consume (f : Nat) (ps q snt : List Nat) :
      FlowStep ⟨ps, f :: q, snt⟩ ⟨ps, q, snt ++ [f]⟩

/-- Finitely many interleaved steps of the two tasks. -/
inductive FlowReach : UpstreamFlow → UpstreamFlow → Prop
  | refl (s : UpstreamFlow) : FlowReach s s
  | step {s1 s2 s3 : UpstreamFlow} :
      FlowReach s1 s2 → FlowStep s2 s3 → FlowReach s1 s3

/-- C8: FIFO forwarding.  In every interleaving of `listen_audio` and
`send_audio_to_gemini` starting with frames `frames` still to produce and
an empty queue, the concatenation sent-upstream ++ queued ++ unproduced is
always exactly `frames`; hence once everything has been produced and
consumed, the upstream handle received the frames one at a time in exactly
the original order — no reordering, no skipping. -/
theorem upstream_fifo_order (frames : List Nat) (t : UpstreamFlow)
    (h : FlowReach ⟨frames, [], []⟩ t) :
    t.sentUp ++ t.queue ++ t.toProduce = frames
    ∧ (t.toProduce = [] → t.queue = [] → t.sentUp = frames) := by
  have key : ∀ s u : UpstreamFlow, FlowReach s u →
      u.sentUp ++ u.queue ++ u.toProduce = s.sentUp ++ s.queue ++ s.toProduce := by
    intro s u hr
    induction hr with
    | refl => rfl
    | step _ hs ih =>
        cases hs with
        | produce f ps q snt =>
            simp only at ih ⊢
            rw [← ih]
            simp
        | consume f ps q snt =>
            simp only at ih ⊢
            rw [← ih]
            simp
  have h1 := key _ _ h
  simp only [List.append_nil, List.nil_append] at h1
  refine ⟨h1, ?_⟩
  intro hp hq
  rw [hp, hq] at h1
  simpa using h1

/-- Concrete interleaving for the C8 witness: produce A, consume A,
produce B, produce C, consume B, consume C. -/
theorem exFlowChain :
    FlowReach ⟨[1, 2, 3], [], []⟩ ⟨[], [], [1, 2, 3]⟩ := by
  have h1 := FlowReach.refl (⟨[1, 2, 3], [], []⟩ : UpstreamFlow)
  have h2 := FlowReach.step h1 (FlowStep.produce 1 [2, 3] [] [])
  have h3 := FlowReach.step h2 (FlowStep.consume 1 [2, 3] [] [])
  have h4 := FlowReach.step h3 (FlowStep.produce 2 [3] [] [1])
  have h5 := FlowReach.step h4 (FlowStep.produce 3 [] [2] [1])
  have h6 := FlowReach.step h5 (FlowStep.consume 2 [] [3] [1])
  exact FlowReach.step h6 (FlowStep.consume 3 [] [] [1, 2])

/-- Witness for C8: after the concrete interleaving of [1, 2, 3], the
upstream handle received [1, 2, 3]. -/
theorem upstream_fifo_order_witness :
    (⟨[], [], [1, 2, 3]⟩ : UpstreamFlow).sentUp = [1, 2, 3] :=
  (upstream_fifo_order [1, 2, 3] ⟨[], [], [1, 2, 3]⟩ exFlowChain).2 rfl rfl

/-- The default value of `cleanup_old_sessions`'s `max_age_seconds`. -/
def defaultMaxAge : Nat := 300

/-- The sweep condition evaluated under the registry lock:
`age > max_age_seconds` (strictly) and
`session.status in [READY, ERROR, CLOSED]`. -/
def sweepTarget (now maxAge : Nat) (sess : VSession) : Bool :=
  decide (now - sess.created_at > maxAge)
  && (decide (sess.status = SStatus.ready)
      || decide (sess.status = SStatus.sessError)
      || decide (sess.status = SStatus.closed))

/-- `cleanup_old_sessions`: collect, under the lock, every session id
satisfying the sweep condition, then call `close_session` on each collected
id (one pass, sequential semantics). -/
def cleanupOldSessions (r : SRegistry) (now maxAge : Nat) : SRegistry :=
  let targets := (r.filter (fun p => sweepTarget now maxAge p.2)).map Prod.fst
  targets.foldl (fun acc sid => (closeSession acc sid).1) r

theorem lookupS_close_self (r : SRegistry) (sid : String) :
    lookupS (closeSession r sid).1 sid = none := by
  match hl : lookupS r sid with
  | none => simp [closeSession, hl]
  | some sess => simp [closeSession, hl, lookupS_eraseS_self]

theorem lookupS_close_ne (r : SRegistry) (sid sid' : String) (h : sid' ≠ sid) :
    lookupS (closeSession r sid).1 sid' = lookupS r sid' := by
  match hl : lookupS r sid with
  | none => simp [closeSession, hl]
  | some sess => simp [closeSession, hl, lookupS_eraseS_ne r sid sid' h]

theorem lookupS_foldClose (sids : List String) (acc : SRegistry) (sid' : String) :
    lookupS (sids.foldl (fun a s => (closeSession a s).1) acc) sid'
      = if sid' ∈ sids then none else lookupS acc sid' := by
  induction sids generalizing acc with
  | nil => simp
  | cons s rest ih =>
      simp only [List.foldl_cons]
      rw [ih]
      by_cases hmem : sid' ∈ rest
      · simp [hmem]
      · by_cases heq : sid' = s
        · subst heq
          simp [hmem, lookupS_close_self]
        · simp [hmem, heq, lookupS_close_ne acc s sid' heq]

theorem lookupS_iff_mem {r : SRegistry} (hnd : (r.map Prod.fst).Nodup)
    {sid : String} {v : VSession} :
    lookupS r sid = some v ↔ (sid, v) ∈ r := by
  induction r with
  | nil => simp [lookupS]
  | cons p rest ih =>
      simp only [List.map_cons, List.nodup_cons] at hnd
      by_cases hp : p.1 = sid
      · constructor
        · intro h
          rw [lookupS, if_pos hp] at h
          obtain rfl : p.2 = v := Option.some_inj.mp h
          have hpe : p = (sid, p.2) := by
            rw [← hp]
          exact hpe ▸ List.mem_cons_self p rest
        · intro h
          rcases List.mem_cons.mp h with heq | hmem
          · rw [lookupS, if_pos hp, ← heq]
          · exfalso
            apply hnd.1
            rw [hp]
            exact List.mem_map.mpr ⟨(sid, v), hmem, rfl⟩
      · rw [lookupS, if_neg hp, ih hnd.2]
        constructor
        · exact fun h => List.mem_cons_of_mem _ h
        · intro h
          rcases List.mem_cons.mp h with heq | hmem
          · exact absurd (by rw [← heq]) hp
          · exact hmem

theorem mem_sweepTargets_iff {r : SRegistry} (hnd : (r.map Prod.fst).Nodup)
    {sid : String} {sess : VSession} (hl : lookupS r sid = some sess)
    (now maxAge : Nat) :
    sid ∈ (r.filter (fun p => sweepTarget now maxAge p.2)).map Prod.fst
      ↔ sweepTarget now maxAge sess = true := by
  constructor
  · intro h
    obtain ⟨p, hp, hfst⟩ := List.mem_map.mp h
    obtain ⟨hpr, hsw⟩ := List.mem_filter.mp hp
    have hmem : (sid, p.2) ∈ r := by
      have hpe : p = (sid, p.2) := by rw [← hfst]
      exact hpe ▸ hpr
    have hlv := (lookupS_iff_mem hnd).mpr hmem
    rw [hl] at hlv
    obtain rfl : sess = p.2 := Option.some_inj.mp hlv
    exact hsw
  · intro hsw
    exact List.mem_map.mpr
      ⟨(sid, sess), List.mem_filter.mpr ⟨(lookupS_iff_mem hnd).mp hl, hsw⟩, rfl⟩

/-- C9: one pass of the sweeper at the default TTL (300 s) closes a
registered session if and only if its status is READY, ERROR or CLOSED and
its age strictly exceeds 300 seconds; a session whose status is IN_USE or
CONNECTING (or PENDING) is never closed by the pass and stays registered
unchanged. -/
theorem sweep_iff_old_and_idle (r : SRegistry) (now : Nat)
    (hnd : (r.map Prod.fst).Nodup) (sid : String) (sess : VSession)
    (hl : lookupS r sid = some sess) :
    (lookupS (cleanupOldSessions r now defaultMaxAge) sid = none
      ↔ (now - sess.created_at > 300
         ∧ (sess.status = SStatus.ready ∨ sess.status = SStatus.sessError
            ∨ sess.status = SStatus.closed)))
    ∧ (sess.status = SStatus.in_use ∨ sess.status = SStatus.connecting
        ∨ sess.status = SStatus.pending →
        lookupS (cleanupOldSessions r now defaultMaxAge) sid = some sess) := by
  have hfold := lookupS_foldClose
    ((r.filter (fun p => sweepTarget now defaultMaxAge p.2)).map Prod.fst) r sid
  have hmemiff := mem_sweepTargets_iff hnd hl now defaultMaxAge
  have hsw : sweepTarget now defaultMaxAge sess = true
      ↔ (now - sess.created_at > 300
         ∧ (sess.status = SStatus.ready ∨ sess.status = SStatus.sessError
            ∨ sess.status = SStatus.closed)) := by
    simp [sweepTarget, defaultMaxAge]
    tauto
  constructor
  · rw [show cleanupOldSessions r now defaultMaxAge
        = ((r.filter (fun p => sweepTarget now defaultMaxAge p.2)).map
            Prod.fst).foldl (fun a s => (closeSession a s).1) r from rfl, hfold]
    by_cases hmem : sid ∈ (r.filter
        (fun p => sweepTarget now defaultMaxAge p.2)).map Prod.fst
    · simp only [hmem, if_pos]
      constructor
      · intro _
        exact hsw.mp (hmemiff.mp hmem)
      · intro _
        trivial
    · simp only [hmem, if_neg, not_false_iff]
      rw [hl]
      constructor
      · intro h
        exact absurd h (by simp)
      · intro hcond
        exact absurd (hmemiff.mpr (hsw.mpr hcond)) hmem
  · intro hst
    have hnot : ¬ sweepTarget now defaultMaxAge sess = true := by
      intro h
      have hc := (hsw.mp h).2
      rcases hst with h1 | h1 | h1 <;> rcases hc with h2 | h2 | h2 <;>
        (rw [h1] at h2; simp at h2)
    rw [show cleanupOldSessions r now defaultMaxAge
        = ((r.filter (fun p => sweepTarget now defaultMaxAge p.2)).map
            Prod.fst).foldl (fun a s => (closeSession a s).1) r from rfl, hfold]
    have hmem : sid ∉ (r.filter
        (fun p => sweepTarget now defaultMaxAge p.2)).map Prod.fst := by
      intro hm
      exact hnot (hmemiff.mp hm)
    simp only [hmem, if_neg, not_false_iff]
    exact hl

/-- Witness for C9: a READY session aged 301 s is swept, one aged 299 s is
not (default TTL 300 s, `created_at = 0`). -/
theorem sweep_iff_old_and_idle_witness :
    lookupS (cleanupOldSessions exReg 301 defaultMaxAge) "ab12cd34" = none
    ∧ ¬ lookupS (cleanupOldSessions exReg 299 defaultMaxAge) "ab12cd34" = none :=
  ⟨(sweep_iff_old_and_idle exReg 301 (by decide) "ab12cd34" exReadySession
      (by decide)).1.mpr ⟨by decide, Or.inl (by decide)⟩,
   fun h =>
    absurd ((sweep_iff_old_and_idle exReg 299 (by decide) "ab12cd34"
      exReadySession (by decide)).1.mp h).1 (by decide)⟩

/-- C10: `create_session` draws `str(uuid.uuid4())[:8]` and stores the new
session with an unconditional dict write.  When the drawn 8-character id
already maps to a session, the write replaces that entry: the registry then
maps the id to the fresh PENDING object — a different object from the old
one — and nothing closed the old session, whose establishment task and
upstream handle are no longer reachable through the registry. -/
theorem create_collision_overwrites (s : MState) (pid u : String) (now : Nat)
    (old : VSession) (_hold : lookupS s.sessions (makeSessionId u) = some old)
    (hkey : old.key ≠ s.next_key) :
    (createSession s pid u now).1 = makeSessionId u
    ∧ lookupS (createSession s pid u now).2.sessions (makeSessionId u)
        = some (newSession s.next_key (makeSessionId u) pid now)
    ∧ (newSession s.next_key (makeSessionId u) pid now).status = SStatus.pending
    ∧ newSession s.next_key (makeSessionId u) pid now ≠ old
    ∧ (∀ v, lookupS (createSession s pid u now).2.sessions (makeSessionId u)
          = some v → v.key ≠ old.key) := by
  refine ⟨?_, ?_, ?_, ?_, ?_⟩
  · rfl
  · simp [createSession, lookupS_storeS_self]
  · rfl
  · intro heq
    apply hkey
    rw [← heq]
    simp [newSession]
  · intro v hv
    rw [show lookupS (createSession s pid u now).2.sessions (makeSessionId u)
          = some (newSession s.next_key (makeSessionId u) pid now) from by
        simp [createSession, lookupS_storeS_self]] at hv
    obtain rfl : newSession s.next_key (makeSessionId u) pid now = v :=
      Option.some_inj.mp hv
    intro hc
    apply hkey
    rw [← hc]
    simp [newSession]

/-- Witness for C10: a second `create_session` drawing a UUID whose first
8 characters equal the id of a live READY session replaces that entry with
a fresh PENDING session; the READY session (key 0, handle 7) is gone from
the registry without having been closed. -/
theorem create_collision_overwrites_witness :
    lookupS (createSession ⟨[(makeSessionId exU, exSess3)], 5⟩ "p2" exU 1).2.sessions
        (makeSessionId exU) = some (newSession 5 (makeSessionId exU) "p2" 1)
    ∧ newSession 5 (makeSessionId exU) "p2" 1 ≠ exSess3
    ∧ makeSessionId exU = "123e4567" :=
  ⟨(create_collision_overwrites ⟨[(makeSessionId exU, exSess3)], 5⟩ "p2" exU 1
      exSess3 (by simp [lookupS]) (by decide)).2.1,
   (create_collision_overwrites ⟨[(makeSessionId exU, exSess3)], 5⟩ "p2" exU 1
      exSess3 (by simp [lookupS]) (by decide)).2.2.2.1,
   by decide⟩

/-- Witness for the amended C6 at the concrete raising handler: the
dispatch takes the failure branch of the disjunction. -/
theorem tool_notification_order_witness :
    (∃ res, failH exFc.name exFc.args = Except.ok res ∧
      (dispatchOne failH exFc).2
        = [⟨exFc.name, ToolStatus.executing, none⟩,
           ⟨exFc.name, ToolStatus.completed, some res⟩])
    ∨ (∃ msg, failH exFc.name exFc.args = Except.error msg ∧
      (dispatchOne failH exFc).2
        = [⟨exFc.name, ToolStatus.executing, none⟩,
           ⟨exFc.name, ToolStatus.failed, some (errorResult exFc.name msg)⟩,
           ⟨exFc.name, ToolStatus.completed, some (errorResult exFc.name msg)⟩]) :=
  tool_notification_order failH exFc

/-- Concrete relay state for the C7 witness: three buffered client-bound
frames, one queued upstream-bound frame. -/
def exRelayState : RelayState := ⟨[1, 2, 3], [9], false⟩

/-- Witness for C7 at the concrete relay state: the stop message clears the
three buffered frames, counts them, sets the flag, and leaves the
upstream-bound queue alone. -/
theorem stop_drains_outbound_witness :
    (listenStep exRelayState ClientMsg.stopMsg).audio_in_queue = []
    ∧ (stopSpeaking exRelayState).2 = exRelayState.audio_in_queue.length
    ∧ (listenStep exRelayState ClientMsg.stopMsg).should_stop = true
    ∧ (listenStep exRelayState ClientMsg.stopMsg).out_queue
        = exRelayState.out_queue :=
  stop_drains_outbound exRelayState
